import Mathlib

set_option autoImplicit false

namespace RecipeApp

/-!
Shallow embedding of the recipe-app-api repository, centred on
`app/recipe/serializers.py` (the only non-test application module under
`src/`).  Rows of the relational store (Tag, Ingredient, Recipe and the
two many-to-many association tables) are Lean structures; users are
identified by their numeric id.  Django/DRF machinery that the source
configures (field lists, read-only fields, nested serializers,
`get_or_create`, many-to-many `add`/`clear`) is embedded explicitly.
-/

/-- A `core.models.Tag` row: `{id, name, user}`. -/
structure Tag where
  id : Nat
  user : Nat
  name : String
  deriving DecidableEq, Repr

/-- A `core.models.Ingredient` row: `{id, name, user}`. -/
structure Ingredient where
  id : Nat
  user : Nat
  name : String
  deriving DecidableEq, Repr

/-- A `core.models.Recipe` row.  `price` (a Decimal) is modelled as a scaled
integer; the image attachment is outside the scope of the modelled claims. -/
structure Recipe where
  id : Nat
  user : Nat
  title : String
  time_minutes : Nat
  price : Nat
  link : String
  description : String
  deriving DecidableEq, Repr

/-- The relational store: entity tables, the two many-to-many association
tables (pairs of (recipe id, tag id) and (recipe id, ingredient id)), and
the auto-increment primary-key counters. -/
structure Store where
  tags : List Tag
  ingredients : List Ingredient
  recipes : List Recipe
  recipeTags : List (Nat × Nat)
  recipeIngredients : List (Nat × Nat)
  nextTagId : Nat
  nextIngredientId : Nat
  nextRecipeId : Nat
  deriving DecidableEq, Repr

/-! ### Serializer field lists, straight from `app/recipe/serializers.py` -/

/-- The `TagSerializer.Meta.fields` list. -/
def tagSerializerFields : List String := ["id", "name"]

/-- The `TagSerializer.Meta.read_only_fields` list. -/
def tagSerializerReadOnlyFields : List String := ["id"]

/-- The `IngredientSerializer.Meta.fields` list. -/
def ingredientSerializerFields : List String := ["id", "name"]

/-- The `IngredientSerializer.Meta.read_only_fields` list. -/
def ingredientSerializerReadOnlyFields : List String := ["id"]

/-- The `RecipeSerializer.Meta.fields` list.  Note the nested many-to-many key is
spelled `ingredient` (singular) in the source. -/
def recipeSerializerFields : List String :=
  ["id", "title", "time_minutes", "price", "link", "tags", "ingredient"]

/-- The `RecipeSerializer.Meta.read_only_fields` list. -/
def recipeSerializerReadOnlyFields : List String := ["id"]

/-- The `RecipeDetailSerializer.Meta.fields` list: the base fields plus `description`. -/
def recipeDetailSerializerFields : List String :=
  recipeSerializerFields ++ ["description"]

/-- A field is writable when it is declared in `fields` and not in
`read_only_fields`; DRF drops every other payload key during
`to_internal_value`. -/
def writableIn (fields ro : List String) (f : String) : Bool :=
  fields.contains f && !(ro.contains f)

/-! ### Nested payload items and their validation -/

/-- A raw client-supplied item of the nested `tags` list; the client may
include an `id` key. -/
structure RawTagItem where
  id : Option Nat := none
  name : String
  deriving DecidableEq, Repr

/-- A validated nested tag item, as it reaches `_get_or_create_tags`. -/
structure TagPayload where
  id : Option Nat
  name : String
  deriving DecidableEq, Repr

/-- A raw client-supplied item of the nested `ingredient` list. -/
structure RawIngredientItem where
  id : Option Nat := none
  name : String
  deriving DecidableEq, Repr

/-- A validated nested ingredient item, as it reaches
`_get_or_create_ingredients`. -/
structure IngredientPayload where
  id : Option Nat
  name : String
  deriving DecidableEq, Repr

/-- DRF validation of one nested tag item against `TagSerializer`:
read-only fields are excluded from the validated data, so the `id` key is
stripped. -/
def nestedValidateTag (it : RawTagItem) : TagPayload :=
  { id := if writableIn tagSerializerFields tagSerializerReadOnlyFields "id" then it.id else none,
    name := it.name }

/-- DRF validation of one nested ingredient item against
`IngredientSerializer`. -/
def nestedValidateIngredient (it : RawIngredientItem) : IngredientPayload :=
  { id := if writableIn ingredientSerializerFields ingredientSerializerReadOnlyFields "id" then it.id else none,
    name := it.name }

/-- A raw recipe payload, as the client sends it: every key optional, and
possibly containing a `user` key (an attempted ownership transfer) along
with the declared fields. -/
structure RawRecipePayload where
  title : Option String := none
  time_minutes : Option Nat := none
  price : Option Nat := none
  link : Option String := none
  description : Option String := none
  user : Option Nat := none
  tags : Option (List RawTagItem) := none
  ingredient : Option (List RawIngredientItem) := none
  deriving DecidableEq, Repr

/-- The serializer `validated_data` dict: only keys that survived
`to_internal_value`.  A key absent from the payload (or dropped because it
is not a writable declared field) is `none`. -/
structure ValidatedData where
  title : Option String
  time_minutes : Option Nat
  price : Option Nat
  link : Option String
  description : Option String
  user : Option Nat
  tags : Option (List TagPayload)
  ingredient : Option (List IngredientPayload)
  deriving DecidableEq, Repr

/-- DRF `to_internal_value` for the recipe serializers: a payload key is kept
exactly when it names a writable declared field; nested lists are validated
item-wise by the nested serializers. -/
def toInternalValue (fields ro : List String) (p : RawRecipePayload) : ValidatedData :=
  { title := if writableIn fields ro "title" then p.title else none,
    time_minutes := if writableIn fields ro "time_minutes" then p.time_minutes else none,
    price := if writableIn fields ro "price" then p.price else none,
    link := if writableIn fields ro "link" then p.link else none,
    description := if writableIn fields ro "description" then p.description else none,
    user := if writableIn fields ro "user" then p.user else none,
    tags := if writableIn fields ro "tags" then p.tags.map (fun l => l.map nestedValidateTag) else none,
    ingredient := if writableIn fields ro "ingredient" then p.ingredient.map (fun l => l.map nestedValidateIngredient) else none }

/-! ### ORM operations used by `serializers.py` -/

/-- The row lookup performed by `Tag.objects.get_or_create(user=auth_user, **tag)`:
every keyword argument is a filter condition, so the match is on `user`,
`name`, and `id` when the payload still carries one. -/
def lookupTag (s : Store) (user : Nat) (p : TagPayload) : Option Tag :=
  s.tags.find? (fun t =>
    t.user == user && t.name == p.name &&
      (match p.id with
       | some i => t.id == i
       | none => true))

/-- Embeds `Tag.objects.get_or_create(user=auth_user, **tag)`: reuse the first
matching row, else insert a new row built from the same keyword arguments
(the primary key comes from the auto-increment counter unless the payload
carries one). -/
def tagGetOrCreate (s : Store) (user : Nat) (p : TagPayload) : Tag × Store :=
  match lookupTag s user p with
  | some t => (t, s)
  | none =>
    let t : Tag := { id := p.id.getD s.nextTagId, user := user, name := p.name }
    (t, { s with tags := s.tags ++ [t], nextTagId := s.nextTagId + 1 })

/-- The row lookup performed by
`Ingredient.objects.get_or_create(user=auth_user, **ingredient)`. -/
def lookupIngredient (s : Store) (user : Nat) (p : IngredientPayload) : Option Ingredient :=
  s.ingredients.find? (fun t =>
    t.user == user && t.name == p.name &&
      (match p.id with
       | some i => t.id == i
       | none => true))

/-- Embeds `Ingredient.objects.get_or_create(user=auth_user, **ingredient)`. -/
def ingredientGetOrCreate (s : Store) (user : Nat) (p : IngredientPayload) : Ingredient × Store :=
  match lookupIngredient s user p with
  | some t => (t, s)
  | none =>
    let t : Ingredient := { id := p.id.getD s.nextIngredientId, user := user, name := p.name }
    (t, { s with ingredients := s.ingredients ++ [t], nextIngredientId := s.nextIngredientId + 1 })

/-- Embeds `recipe.tags.add(tag_obj)`: a many-to-many `add` inserts the association
row unless it is already present. -/
def tagsAdd (s : Store) (rid tid : Nat) : Store :=
  if s.recipeTags.contains (rid, tid) then s
  else { s with recipeTags := s.recipeTags ++ [(rid, tid)] }

/-- Embeds `recipe.tags.clear()`: remove every association row of this recipe. -/
def tagsClear (s : Store) (rid : Nat) : Store :=
  { s with recipeTags := s.recipeTags.filter (fun p => p.1 != rid) }

/-- Embeds `recipe.ingredient.add(ingredient_obj)`. -/
def ingredientAdd (s : Store) (rid iid : Nat) : Store :=
  if s.recipeIngredients.contains (rid, iid) then s
  else { s with recipeIngredients := s.recipeIngredients ++ [(rid, iid)] }

/-- Embeds `recipe.ingredient.clear()`. -/
def ingredientClear (s : Store) (rid : Nat) : Store :=
  { s with recipeIngredients := s.recipeIngredients.filter (fun p => p.1 != rid) }

/-- One iteration of the loop in `RecipeSerializer._get_or_create_tags`:
get-or-create the tag row, then associate it with the recipe. -/
def getOrCreateTagStep (user rid : Nat) (s : Store) (p : TagPayload) : Store :=
  let r := tagGetOrCreate s user p
  tagsAdd r.2 rid r.1.id

/-- Embeds `RecipeSerializer._get_or_create_tags(tags, recipe)`. -/
def getOrCreateTags (s : Store) (user rid : Nat) (tags : List TagPayload) : Store :=
  tags.foldl (getOrCreateTagStep user rid) s

/-- One iteration of the loop in `RecipeSerializer._get_or_create_ingredients`. -/
def getOrCreateIngredientStep (user rid : Nat) (s : Store) (p : IngredientPayload) : Store :=
  let r := ingredientGetOrCreate s user p
  ingredientAdd r.2 rid r.1.id

/-- Embeds `RecipeSerializer._get_or_create_ingredients(ingredients, recipe)`. -/
def getOrCreateIngredients (s : Store) (user rid : Nat) (ingredients : List IngredientPayload) : Store :=
  ingredients.foldl (getOrCreateIngredientStep user rid) s

/-- Embeds `RecipeSerializer.create(validated_data)`: pop the nested lists
(default empty), create the recipe row (the view supplies
`user=request.user` through `serializer.save`), then run the two
get-or-create loops.  Returns the new recipe id with the updated store. -/
def RecipeSerializer.create (s : Store) (authUser : Nat) (vd : ValidatedData) : Nat × Store :=
  let tags := vd.tags.getD []
  let ingredient := vd.ingredient.getD []
  let rid := s.nextRecipeId
  let r : Recipe :=
    { id := rid, user := authUser,
      title := vd.title.getD "", time_minutes := vd.time_minutes.getD 0,
      price := vd.price.getD 0, link := vd.link.getD "",
      description := vd.description.getD "" }
  let s1 := { s with recipes := s.recipes ++ [r], nextRecipeId := s.nextRecipeId + 1 }
  let s2 := getOrCreateTags s1 authUser rid tags
  let s3 := getOrCreateIngredients s2 authUser rid ingredient
  (rid, s3)

/-- The final `for attr, value in validated_data.items(): setattr(instance,
attr, value)` loop of `RecipeSerializer.update`, followed by
`instance.save()`: every key still present in `validated_data` (the nested
lists were popped before the loop) is written onto the instance. -/
def setattrLoop (vd : ValidatedData) (r : Recipe) : Recipe :=
  { r with
    title := vd.title.getD r.title,
    time_minutes := vd.time_minutes.getD r.time_minutes,
    price := vd.price.getD r.price,
    link := vd.link.getD r.link,
    description := vd.description.getD r.description,
    user := vd.user.getD r.user }

/-- Embeds `RecipeSerializer.update(instance, validated_data)`.  Both pops use the
default `[]`, so the popped value is a list and never the Python `None`;
the subsequent `if tags is not None:` guard therefore always takes the
clear-and-rebuild branch, also when the payload key was absent. -/
def RecipeSerializer.update (s : Store) (authUser rid : Nat) (vd : ValidatedData) : Store :=
  let tags : Option (List TagPayload) := some (vd.tags.getD [])
  let ingredient : Option (List IngredientPayload) := some (vd.ingredient.getD [])
  let s1 :=
    match tags with
    | some ts => getOrCreateTags (tagsClear s rid) authUser rid ts
    | none => s
  let s2 :=
    match ingredient with
    | some ps => getOrCreateIngredients (ingredientClear s1 rid) authUser rid ps
    | none => s1
  { s2 with recipes := s2.recipes.map (fun r => if r.id == rid then setattrLoop vd r else r) }

/-- The serializer-level update endpoint behaviour: validate the raw payload
against the detail serializer (the one the view binds to update requests),
then run `RecipeSerializer.update`. -/
def serializerUpdate (s : Store) (authUser rid : Nat) (p : RawRecipePayload) : Store :=
  RecipeSerializer.update s authUser rid
    (toInternalValue recipeDetailSerializerFields recipeSerializerReadOnlyFields p)

/-- The serializer-level create endpoint behaviour. -/
def serializerCreate (s : Store) (authUser : Nat) (p : RawRecipePayload) : Nat × Store :=
  RecipeSerializer.create s authUser
    (toInternalValue recipeSerializerFields recipeSerializerReadOnlyFields p)

/-! ### API layer (views), modelled from the spec

The repository `views.py` modules are not among the provided sources
(only the serializers and the API tests are), so the view-level behaviour
— user scoping, not-found masking, query-parameter filtering, ordering,
deduplication — is modelled from the specification text. -/

/-- Modelled from the spec: list ordering.  Insertion step of a sort by a
boolean comparison, used for descending orderings. -/
def insertDescBy {α : Type} (le : α → α → Bool) (x : α) : List α → List α
  | [] => [x]
  | y :: ys => if le y x then x :: y :: ys else y :: insertDescBy le x ys

/-- Modelled from the spec: list ordering (descending by the given
comparison). -/
def sortDescBy {α : Type} (le : α → α → Bool) : List α → List α
  | [] => []
  | x :: xs => insertDescBy le x (sortDescBy le xs)

/-- Modelled from the spec: result deduplication ("result must be
deduplicated"); keeps the first occurrence of each key. -/
def distinctBy {α : Type} (key : α → Nat) : List α → List α
  | [] => []
  | x :: xs => x :: distinctBy key (xs.filter (fun y => key y != key x))
termination_by l => l.length
decreasing_by
  simp only [List.length_cons]
  exact Nat.lt_succ_of_le (List.length_filter_le _ _)

/-- Split a character list on commas. -/
def splitOnCommaChars : List Char → List (List Char)
  | [] => [[]]
  | c :: cs =>
    let rest := splitOnCommaChars cs
    if c = ',' then [] :: rest
    else
      match rest with
      | [] => [[c]]
      | g :: gs => (c :: g) :: gs

/-- Parse a nonempty all-digit character list as a decimal number. -/
def charsToNat? (cs : List Char) : Option Nat :=
  if cs = [] then none
  else
    cs.foldl
      (fun acc c =>
        match acc with
        | none => none
        | some n => if c.isDigit then some (n * 10 + (c.toNat - 48)) else none)
      (some 0)

/-- Modelled from the spec: parsing of a comma-separated id list query
parameter. -/
def paramsToInts (qs : String) : List Nat :=
  (splitOnCommaChars qs.data).filterMap charsToNat?

/-- Whether the recipe with id `rid` is associated with at least one tag
whose id is in `ids`. -/
def recipeHasTagIn (s : Store) (rid : Nat) (ids : List Nat) : Bool :=
  s.recipeTags.any (fun p => p.1 == rid && ids.contains p.2)

/-- Whether the recipe with id `rid` is associated with at least one
ingredient whose id is in `ids`. -/
def recipeHasIngredientIn (s : Store) (rid : Nat) (ids : List Nat) : Bool :=
  s.recipeIngredients.any (fun p => p.1 == rid && ids.contains p.2)

/-- Modelled from the spec: the relational join underlying a
`tags__id__in` filter — one result row per matching association row, so a
recipe matching several of the listed ids occurs several times before
deduplication. -/
def joinRecipesTags (s : Store) (rs : List Recipe) (ids : List Nat) : List Recipe :=
  rs.flatMap (fun r =>
    (s.recipeTags.filter (fun p => p.1 == r.id && ids.contains p.2)).map (fun _ => r))

/-- Modelled from the spec: the relational join underlying an
ingredient-id filter. -/
def joinRecipesIngredients (s : Store) (rs : List Recipe) (ids : List Nat) : List Recipe :=
  rs.flatMap (fun r =>
    (s.recipeIngredients.filter (fun p => p.1 == r.id && ids.contains p.2)).map (fun _ => r))

/-- Modelled from the spec: the recipe list endpoint.  The queryset is
scoped to the authenticated user; an optional comma-separated tag-id
parameter and an optional comma-separated ingredient-id parameter each
restrict the result to recipes associated with at least one listed id
(the two filters conjoin); the result is ordered by descending id and
deduplicated. -/
def recipeListPre (s : Store) (u : Nat) (tagsParam ingredientParam : Option String) : List Recipe :=
  let base := s.recipes.filter (fun r => r.user == u)
  let afterTags :=
    match tagsParam with
    | some qs => joinRecipesTags s base (paramsToInts qs)
    | none => base
  match ingredientParam with
  | some qs => joinRecipesIngredients s afterTags (paramsToInts qs)
  | none => afterTags

/-- Modelled from the spec: the recipe list result — the filtered join
rows, ordered by descending id and deduplicated. -/
def recipeListView (s : Store) (u : Nat) (tagsParam ingredientParam : Option String) : List Recipe :=
  distinctBy Recipe.id
    (sortDescBy (fun a b => a.id ≤ b.id) (recipeListPre s u tagsParam ingredientParam))

/-- Whether the recipe with id `rid` exists and is owned by `u`. -/
def recipeOwnedBy (s : Store) (u rid : Nat) : Bool :=
  s.recipes.any (fun r => r.id == rid && r.user == u)

/-- Whether the tag with id `tid` is associated with at least one recipe
owned by `u`. -/
def tagAssignedTo (s : Store) (u tid : Nat) : Bool :=
  s.recipeTags.any (fun p => p.2 == tid && recipeOwnedBy s u p.1)

/-- Whether the ingredient with id `iid` is associated with at least one
recipe owned by `u`. -/
def ingredientAssignedTo (s : Store) (u iid : Nat) : Bool :=
  s.recipeIngredients.any (fun p => p.2 == iid && recipeOwnedBy s u p.1)

/-- Modelled from the spec: the tag list endpoint.  Scoped to the
authenticated user; with `assigned_only=1` the queryset joins the
association table, keeping one row per association to a recipe owned by
the user; ordered by descending name and deduplicated. -/
def tagListPre (s : Store) (u : Nat) (assignedOnly : Bool) : List Tag :=
  let base := s.tags.filter (fun t => t.user == u)
  if assignedOnly then
    base.flatMap (fun t =>
      (s.recipeTags.filter (fun p => p.2 == t.id && recipeOwnedBy s u p.1)).map (fun _ => t))
  else base

/-- Modelled from the spec: the tag list result — the scoped (and, with
`assigned_only=1`, joined) rows, ordered by descending name and
deduplicated. -/
def tagListView (s : Store) (u : Nat) (assignedOnly : Bool) : List Tag :=
  distinctBy Tag.id
    (sortDescBy (fun a b => decide (a.name ≤ b.name)) (tagListPre s u assignedOnly))

/-- Modelled from the spec: the ingredient list endpoint, analogous to the
tag list endpoint. -/
def ingredientListPre (s : Store) (u : Nat) (assignedOnly : Bool) : List Ingredient :=
  let base := s.ingredients.filter (fun t => t.user == u)
  if assignedOnly then
    base.flatMap (fun t =>
      (s.recipeIngredients.filter (fun p => p.2 == t.id && recipeOwnedBy s u p.1)).map (fun _ => t))
  else base

/-- Modelled from the spec: the ingredient list result — scoped, joined
when `assigned_only=1`, ordered by descending name and deduplicated. -/
def ingredientListView (s : Store) (u : Nat) (assignedOnly : Bool) : List Ingredient :=
  distinctBy Ingredient.id
    (sortDescBy (fun a b => decide (a.name ≤ b.name)) (ingredientListPre s u assignedOnly))

/-- Modelled from the spec: detail-route object lookup — the object is
looked up inside the user-scoped queryset, so an id owned by another user
is simply not found. -/
def recipeDetailGet (s : Store) (u rid : Nat) : Option Recipe :=
  (s.recipes.filter (fun r => r.user == u)).find? (fun r => r.id == rid)

/-- Modelled from the spec: retrieve a recipe by id; HTTP status 200 on
success, 404 when the id is absent or owned by another user. -/
def retrieveRecipeView (s : Store) (u rid : Nat) : Nat :=
  match recipeDetailGet s u rid with
  | some _ => 200
  | none => 404

/-- Modelled from the spec: update a recipe by id through the serializer;
404 (with the store untouched) when the id is not in the user-scoped
queryset. -/
def updateRecipeView (s : Store) (u rid : Nat) (p : RawRecipePayload) : Nat × Store :=
  match recipeDetailGet s u rid with
  | some _ => (200, serializerUpdate s u rid p)
  | none => (404, s)

/-- Modelled from the spec: delete a recipe by id; cascading removal of
its association rows; 404 (with the store untouched) when the id is not
in the user-scoped queryset. -/
def deleteRecipeView (s : Store) (u rid : Nat) : Nat × Store :=
  match recipeDetailGet s u rid with
  | some r =>
    (204, { s with
      recipes := s.recipes.filter (fun x => x.id != r.id),
      recipeTags := s.recipeTags.filter (fun p => p.1 != r.id),
      recipeIngredients := s.recipeIngredients.filter (fun p => p.1 != r.id) })
  | none => (404, s)

/-- Modelled from the spec: detail-route object lookup for tags. -/
def tagDetailGet (s : Store) (u tid : Nat) : Option Tag :=
  (s.tags.filter (fun t => t.user == u)).find? (fun t => t.id == tid)

/-- Modelled from the spec: retrieve a tag by id. -/
def retrieveTagView (s : Store) (u tid : Nat) : Nat :=
  match tagDetailGet s u tid with
  | some _ => 200
  | none => 404

/-- Modelled from the spec: update the name of a tag by id; 404 (store
untouched) when the id is not in the user-scoped queryset. -/
def updateTagView (s : Store) (u tid : Nat) (nm : Option String) : Nat × Store :=
  match tagDetailGet s u tid with
  | some _ =>
    (200, { s with tags := s.tags.map (fun t => if t.id == tid then { t with name := nm.getD t.name } else t) })
  | none => (404, s)

/-- Modelled from the spec: delete a tag by id, with cascading removal of
its association rows; 404 (store untouched) otherwise. -/
def deleteTagView (s : Store) (u tid : Nat) : Nat × Store :=
  match tagDetailGet s u tid with
  | some t =>
    (204, { s with
      tags := s.tags.filter (fun x => x.id != t.id),
      recipeTags := s.recipeTags.filter (fun p => p.2 != t.id) })
  | none => (404, s)

/-- Modelled from the spec: detail-route object lookup for ingredients. -/
def ingredientDetailGet (s : Store) (u iid : Nat) : Option Ingredient :=
  (s.ingredients.filter (fun t => t.user == u)).find? (fun t => t.id == iid)

/-- Modelled from the spec: retrieve an ingredient by id. -/
def retrieveIngredientView (s : Store) (u iid : Nat) : Nat :=
  match ingredientDetailGet s u iid with
  | some _ => 200
  | none => 404

/-- Modelled from the spec: update the name of an ingredient by id. -/
def updateIngredientView (s : Store) (u iid : Nat) (nm : Option String) : Nat × Store :=
  match ingredientDetailGet s u iid with
  | some _ =>
    (200, { s with ingredients := s.ingredients.map (fun t => if t.id == iid then { t with name := nm.getD t.name } else t) })
  | none => (404, s)

/-- Modelled from the spec: delete an ingredient by id, with cascading
removal of its association rows. -/
def deleteIngredientView (s : Store) (u iid : Nat) : Nat × Store :=
  match ingredientDetailGet s u iid with
  | some t =>
    (204, { s with
      ingredients := s.ingredients.filter (fun x => x.id != t.id),
      recipeIngredients := s.recipeIngredients.filter (fun p => p.2 != t.id) })
  | none => (404, s)

/-! ### Transaction model for the create/update write sequence

The transaction demarcation (framework settings and view layer) is not
among the provided sources, so the all-or-nothing wrapper is modelled from
the spec; the step sequence inside it is the one of the serializer. -/

/-- Modelled from the spec: the all-or-nothing transaction around a
create/update operation — on success the produced store is committed, on
any failure the stored state is rolled back to the initial one.  The Bool
is `true` on commit. -/
def runAtomic (s : Store) (op : Store → Option Store) : Store × Bool :=
  match op s with
  | some s2 => (s2, true)
  | none => (s, false)

/-- Run a list of per-item store writes, numbering the steps from `k`; the
oracle says which write raises. -/
def foldFallible {β : Type} (oracle : Nat → Bool) (step : Store → β → Store) :
    Nat → List β → Store → Option Store
  | _, [], s => some s
  | k, b :: bs, s =>
    if oracle k then none else foldFallible oracle step (k + 1) bs (step s b)

/-- The `RecipeSerializer.create` sequence decomposed into its database writes, each of
which may fail: step 0 inserts the recipe row, then one step per nested
tag item, then one per nested ingredient item. -/
def createFallible (oracle : Nat → Bool) (s : Store) (authUser : Nat) (vd : ValidatedData) : Option Store :=
  let tags := vd.tags.getD []
  let ingredient := vd.ingredient.getD []
  if oracle 0 then none else
  let rid := s.nextRecipeId
  let r : Recipe :=
    { id := rid, user := authUser,
      title := vd.title.getD "", time_minutes := vd.time_minutes.getD 0,
      price := vd.price.getD 0, link := vd.link.getD "",
      description := vd.description.getD "" }
  let s1 := { s with recipes := s.recipes ++ [r], nextRecipeId := s.nextRecipeId + 1 }
  match foldFallible oracle (getOrCreateTagStep authUser rid) 1 tags s1 with
  | none => none
  | some s2 =>
    foldFallible oracle (getOrCreateIngredientStep authUser rid) (1 + tags.length) ingredient s2

/-- The `RecipeSerializer.update` sequence decomposed into its database writes: step 0
clears the tag associations, then one step per tag item, then the
ingredient clear, one step per ingredient item, and finally the
`instance.save()` write. -/
def updateFallible (oracle : Nat → Bool) (s : Store) (authUser rid : Nat) (vd : ValidatedData) : Option Store :=
  let tags := vd.tags.getD []
  let ingredient := vd.ingredient.getD []
  if oracle 0 then none else
  match foldFallible oracle (getOrCreateTagStep authUser rid) 1 tags (tagsClear s rid) with
  | none => none
  | some s1 =>
    if oracle (1 + tags.length) then none else
    match foldFallible oracle (getOrCreateIngredientStep authUser rid) (2 + tags.length) ingredient (ingredientClear s1 rid) with
    | none => none
    | some s2 =>
      if oracle (2 + tags.length + ingredient.length) then none else
      some { s2 with recipes := s2.recipes.map (fun r => if r.id == rid then setattrLoop vd r else r) }

/-! ### General lemmas about the list combinators -/

theorem mem_of_mem_distinctBy {α : Type} (key : α → Nat) :
    ∀ (l : List α) (a : α), a ∈ distinctBy key l → a ∈ l
  | [], a, h => by simp [distinctBy] at h
  | x :: xs, a, h => by
    rw [distinctBy] at h
    rcases List.mem_cons.mp h with h1 | h2
    · exact h1 ▸ List.mem_cons_self x xs
    · exact List.mem_cons_of_mem x
        (List.mem_of_mem_filter
          (mem_of_mem_distinctBy key (xs.filter (fun y => key y != key x)) a h2))
termination_by l _ _ => l.length
decreasing_by
  simp only [List.length_cons]
  exact Nat.lt_succ_of_le (List.length_filter_le _ _)

theorem mem_distinctBy_of_mem {α : Type} (key : α → Nat) :
    ∀ (l : List α) (a : α),
      (∀ x ∈ l, ∀ y ∈ l, key x = key y → x = y) → a ∈ l → a ∈ distinctBy key l
  | [], a, _, h => by simp at h
  | x :: xs, a, hinj, h => by
    rw [distinctBy]
    rcases List.mem_cons.mp h with h1 | h2
    · exact h1 ▸ List.mem_cons_self _ _
    · by_cases hk : key a = key x
      · have : a = x :=
          hinj a h x (List.mem_cons_self x xs) hk
        exact this ▸ List.mem_cons_self _ _
      · refine List.mem_cons_of_mem x ?_
        refine mem_distinctBy_of_mem key _ a ?_ ?_
        · intro p hp q hq hpq
          exact hinj p (List.mem_cons_of_mem x (List.mem_of_mem_filter hp))
            q (List.mem_cons_of_mem x (List.mem_of_mem_filter hq)) hpq
        · refine List.mem_filter.mpr ⟨h2, ?_⟩
          simpa using hk
termination_by l _ _ _ => l.length
decreasing_by
  simp only [List.length_cons]
  exact Nat.lt_succ_of_le (List.length_filter_le _ _)

theorem count_distinctBy_le_one {α : Type} [DecidableEq α] (key : α → Nat) :
    ∀ (l : List α) (a : α), (distinctBy key l).count a ≤ 1
  | [], a => by simp [distinctBy]
  | x :: xs, a => by
    rw [distinctBy]
    by_cases hax : a = x
    · subst hax
      have hzero : (distinctBy key (xs.filter (fun y => key y != key a))).count a = 0 := by
        refine List.count_eq_zero.mpr ?_
        intro hmem
        have hf := List.mem_filter.mp (mem_of_mem_distinctBy key _ a hmem)
        simp at hf
      simp [List.count_cons, hzero]
    · have := count_distinctBy_le_one key (xs.filter (fun y => key y != key x)) a
      simpa [List.count_cons, hax] using this
termination_by l _ => l.length
decreasing_by
  simp only [List.length_cons]
  exact Nat.lt_succ_of_le (List.length_filter_le _ _)

theorem insertDescBy_perm {α : Type} (le : α → α → Bool) (x : α) :
    ∀ l : List α, (insertDescBy le x l).Perm (x :: l)
  | [] => List.Perm.refl _
  | y :: ys => by
    rw [insertDescBy]
    split
    · exact List.Perm.refl _
    · exact ((insertDescBy_perm le x ys).cons y).trans (List.Perm.swap x y ys)

theorem sortDescBy_perm {α : Type} (le : α → α → Bool) :
    ∀ l : List α, (sortDescBy le l).Perm l
  | [] => List.Perm.refl _
  | x :: xs =>
    (insertDescBy_perm le x (sortDescBy le xs)).trans ((sortDescBy_perm le xs).cons x)

theorem mem_sortDescBy {α : Type} (le : α → α → Bool) (l : List α) (a : α) :
    a ∈ sortDescBy le l ↔ a ∈ l :=
  (sortDescBy_perm le l).mem_iff

/-- Running `find?` then a projection, through a map whose function preserves both the
predicate and the projection. -/
theorem find?_map_proj {α β : Type} (f : α → α) (q : α → Bool) (g : α → β)
    (hq : ∀ r, q (f r) = q r) (hg : ∀ r, q r = true → g (f r) = g r) :
    ∀ l : List α, ((l.map f).find? q).map g = (l.find? q).map g
  | [] => rfl
  | a :: l => by
    by_cases h : q a = true
    · rw [List.map_cons, List.find?_cons_of_pos _ (by rw [hq]; exact h),
        List.find?_cons_of_pos _ h]
      simp [hg a h]
    · rw [List.map_cons, List.find?_cons_of_neg _ (by rw [hq]; simpa using h),
        List.find?_cons_of_neg _ (by simpa using h)]
      exact find?_map_proj f q g hq hg l

/-! ### Frame lemmas for the store operations of `serializers.py` -/

theorem tagGetOrCreate_frame (s : Store) (u : Nat) (p : TagPayload) :
    (tagGetOrCreate s u p).2.recipes = s.recipes ∧
    (tagGetOrCreate s u p).2.ingredients = s.ingredients ∧
    (tagGetOrCreate s u p).2.recipeTags = s.recipeTags ∧
    (tagGetOrCreate s u p).2.recipeIngredients = s.recipeIngredients := by
  unfold tagGetOrCreate
  cases lookupTag s u p <;> exact ⟨rfl, rfl, rfl, rfl⟩

theorem tagsAdd_frame (s : Store) (rid tid : Nat) :
    (tagsAdd s rid tid).recipes = s.recipes ∧
    (tagsAdd s rid tid).ingredients = s.ingredients ∧
    (tagsAdd s rid tid).tags = s.tags ∧
    (tagsAdd s rid tid).recipeIngredients = s.recipeIngredients := by
  unfold tagsAdd
  split <;> exact ⟨rfl, rfl, rfl, rfl⟩

theorem getOrCreateTagStep_frame (u rid : Nat) (s : Store) (p : TagPayload) :
    (getOrCreateTagStep u rid s p).recipes = s.recipes ∧
    (getOrCreateTagStep u rid s p).ingredients = s.ingredients ∧
    (getOrCreateTagStep u rid s p).recipeIngredients = s.recipeIngredients := by
  have h1 := tagGetOrCreate_frame s u p
  have h2 := tagsAdd_frame (tagGetOrCreate s u p).2 rid (tagGetOrCreate s u p).1.id
  unfold getOrCreateTagStep
  exact ⟨h2.1.trans h1.1, h2.2.1.trans h1.2.1, h2.2.2.2.trans h1.2.2.2⟩

theorem getOrCreateTags_frame (u rid : Nat) :
    ∀ (l : List TagPayload) (s : Store),
      (getOrCreateTags s u rid l).recipes = s.recipes ∧
      (getOrCreateTags s u rid l).ingredients = s.ingredients ∧
      (getOrCreateTags s u rid l).recipeIngredients = s.recipeIngredients
  | [], s => ⟨rfl, rfl, rfl⟩
  | p :: ps, s => by
    have hstep := getOrCreateTagStep_frame u rid s p
    have ih := getOrCreateTags_frame u rid ps (getOrCreateTagStep u rid s p)
    exact ⟨ih.1.trans hstep.1, ih.2.1.trans hstep.2.1, ih.2.2.trans hstep.2.2⟩

theorem ingredientGetOrCreate_frame (s : Store) (u : Nat) (p : IngredientPayload) :
    (ingredientGetOrCreate s u p).2.recipes = s.recipes ∧
    (ingredientGetOrCreate s u p).2.tags = s.tags ∧
    (ingredientGetOrCreate s u p).2.recipeTags = s.recipeTags ∧
    (ingredientGetOrCreate s u p).2.recipeIngredients = s.recipeIngredients := by
  unfold ingredientGetOrCreate
  cases lookupIngredient s u p <;> exact ⟨rfl, rfl, rfl, rfl⟩

theorem ingredientAdd_frame (s : Store) (rid iid : Nat) :
    (ingredientAdd s rid iid).recipes = s.recipes ∧
    (ingredientAdd s rid iid).tags = s.tags ∧
    (ingredientAdd s rid iid).ingredients = s.ingredients ∧
    (ingredientAdd s rid iid).recipeTags = s.recipeTags := by
  unfold ingredientAdd
  split <;> exact ⟨rfl, rfl, rfl, rfl⟩

theorem getOrCreateIngredientStep_frame (u rid : Nat) (s : Store) (p : IngredientPayload) :
    (getOrCreateIngredientStep u rid s p).recipes = s.recipes ∧
    (getOrCreateIngredientStep u rid s p).tags = s.tags ∧
    (getOrCreateIngredientStep u rid s p).recipeTags = s.recipeTags := by
  have h1 := ingredientGetOrCreate_frame s u p
  have h2 := ingredientAdd_frame (ingredientGetOrCreate s u p).2 rid (ingredientGetOrCreate s u p).1.id
  unfold getOrCreateIngredientStep
  exact ⟨h2.1.trans h1.1, h2.2.1.trans h1.2.1, h2.2.2.2.trans h1.2.2.1⟩

theorem getOrCreateIngredients_frame (u rid : Nat) :
    ∀ (l : List IngredientPayload) (s : Store),
      (getOrCreateIngredients s u rid l).recipes = s.recipes ∧
      (getOrCreateIngredients s u rid l).tags = s.tags ∧
      (getOrCreateIngredients s u rid l).recipeTags = s.recipeTags
  | [], s => ⟨rfl, rfl, rfl⟩
  | p :: ps, s => by
    have hstep := getOrCreateIngredientStep_frame u rid s p
    have ih := getOrCreateIngredients_frame u rid ps (getOrCreateIngredientStep u rid s p)
    exact ⟨ih.1.trans hstep.1, ih.2.1.trans hstep.2.1, ih.2.2.trans hstep.2.2⟩

theorem mem_tagsAdd (s : Store) (rid tid : Nat) :
    (rid, tid) ∈ (tagsAdd s rid tid).recipeTags := by
  unfold tagsAdd
  split
  · next h => exact List.mem_of_elem_eq_true h
  · simp

theorem mem_ingredientAdd (s : Store) (rid iid : Nat) :
    (rid, iid) ∈ (ingredientAdd s rid iid).recipeIngredients := by
  unfold ingredientAdd
  split
  · next h => exact List.mem_of_elem_eq_true h
  · simp

/-! ### Facts about the serializer field configuration -/

theorem detail_tags_writable :
    writableIn recipeDetailSerializerFields recipeSerializerReadOnlyFields "tags" = true := by
  decide

theorem detail_user_not_writable :
    writableIn recipeDetailSerializerFields recipeSerializerReadOnlyFields "user" = false := by
  decide

theorem filter_eq_nil_of_filter_ne (rid : Nat) (L : List (Nat × Nat)) :
    (L.filter (fun q => q.1 != rid)).filter (fun q => q.1 == rid) = [] := by
  induction L with
  | nil => rfl
  | cons a l ih =>
    by_cases h : a.1 = rid <;> simp [List.filter_cons, h, ih]

/-- The recipes table after `RecipeSerializer.update`, before the final
`setattr`/`save` write, is the input recipes table: none of the relation
operations touches it. -/
theorem update_recipes_shape (s : Store) (u rid : Nat) (vd : ValidatedData) :
    RecipeSerializer.update s u rid vd =
      { getOrCreateIngredients
          (ingredientClear (getOrCreateTags (tagsClear s rid) u rid (vd.tags.getD [])) rid)
          u rid (vd.ingredient.getD []) with
        recipes :=
          (getOrCreateIngredients
            (ingredientClear (getOrCreateTags (tagsClear s rid) u rid (vd.tags.getD [])) rid)
            u rid (vd.ingredient.getD [])).recipes.map
              (fun r => if r.id == rid then setattrLoop vd r else r) } := by
  rfl

/-! ### C1 -/

/-- The store of the C1 failing input: one user (id 1) owning one tag
("Dessert", id 1) and one recipe (id 10) associated with that tag. -/
def c1Store : Store :=
  { tags := [{ id := 1, user := 1, name := "Dessert" }],
    ingredients := [],
    recipes := [{ id := 10, user := 1, title := "Sample recipe", time_minutes := 10,
                  price := 550, link := "", description := "" }],
    recipeTags := [(10, 1)],
    recipeIngredients := [],
    nextTagId := 2, nextIngredientId := 1, nextRecipeId := 11 }

/-- The C1 failing payload: a partial update carrying only a new title —
the `tags` and `ingredient` keys are absent. -/
def c1Payload : RawRecipePayload := { title := some "New Recipe Title" }

/-- C1: the claim says an update whose payload has no `tags` key leaves the
tag association set unchanged.  The code pops `tags` with default `[]` and
the `if tags is not None` guard can then never be false, so the absent key
still clears and rebuilds the relation from the empty list: on a recipe
with one tag association, a title-only update empties the association
set.  The vestigial `is not None` guard shows the intended default was
`None`; the code contradicts that intent. -/
theorem c1_absent_tags_key_still_clears_associations :
    c1Payload.tags = none ∧
    c1Store.recipeTags = [(10, 1)] ∧
    (serializerUpdate c1Store 1 10 c1Payload).recipeTags = [] := by
  refine ⟨rfl, rfl, ?_⟩
  rfl

/-! ### C3 -/

/-- C3: updating a recipe with `tags: []` removes every tag association of
that recipe while leaving the table of Tag rows untouched. -/
theorem c3_empty_tags_list_clears_associations_keeps_rows
    (s : Store) (u rid : Nat) (p : RawRecipePayload) (h : p.tags = some []) :
    ((serializerUpdate s u rid p).recipeTags.filter (fun q => q.1 == rid)) = [] ∧
    (serializerUpdate s u rid p).tags = s.tags := by
  have hvd :
      (toInternalValue recipeDetailSerializerFields recipeSerializerReadOnlyFields p).tags
        = some [] := by
    simp [toInternalValue, detail_tags_writable, h]
  set vd := toInternalValue recipeDetailSerializerFields recipeSerializerReadOnlyFields p with hvddef
  have hshape := update_recipes_shape s u rid vd
  have hempty : vd.tags.getD [] = [] := by rw [hvd]; rfl
  have hs1 : getOrCreateTags (tagsClear s rid) u rid (vd.tags.getD []) = tagsClear s rid := by
    rw [hempty]; rfl
  have hingframe := getOrCreateIngredients_frame u rid (vd.ingredient.getD [])
    (ingredientClear (getOrCreateTags (tagsClear s rid) u rid (vd.tags.getD [])) rid)
  constructor
  · show ((serializerUpdate s u rid p).recipeTags.filter (fun q => q.1 == rid)) = []
    have : (serializerUpdate s u rid p).recipeTags
        = s.recipeTags.filter (fun q => q.1 != rid) := by
      show (RecipeSerializer.update s u rid vd).recipeTags
          = s.recipeTags.filter (fun q => q.1 != rid)
      rw [hshape]
      show (getOrCreateIngredients
          (ingredientClear (getOrCreateTags (tagsClear s rid) u rid (vd.tags.getD [])) rid)
          u rid (vd.ingredient.getD [])).recipeTags
        = s.recipeTags.filter (fun q => q.1 != rid)
      rw [hingframe.2.2, hs1]
      rfl
    rw [this]
    exact filter_eq_nil_of_filter_ne rid s.recipeTags
  · show (RecipeSerializer.update s u rid vd).tags = s.tags
    rw [hshape]
    show (getOrCreateIngredients
        (ingredientClear (getOrCreateTags (tagsClear s rid) u rid (vd.tags.getD [])) rid)
        u rid (vd.ingredient.getD [])).tags = s.tags
    rw [hingframe.2.1, hs1]
    have := getOrCreateTags_frame u rid (vd.tags.getD []) (tagsClear s rid)
    rfl

/-- Witness store for C3: user 1, recipe 20 associated with tag 3. -/
def c3Store : Store :=
  { tags := [{ id := 3, user := 1, name := "Dessert" }],
    ingredients := [],
    recipes := [{ id := 20, user := 1, title := "t", time_minutes := 5,
                  price := 100, link := "", description := "" }],
    recipeTags := [(20, 3)],
    recipeIngredients := [],
    nextTagId := 4, nextIngredientId := 1, nextRecipeId := 21 }

/-- Witness payload for C3: `tags` present and equal to the empty list. -/
def c3Payload : RawRecipePayload := { tags := some [] }

theorem c3_witness :
    ((serializerUpdate c3Store 1 20 c3Payload).recipeTags.filter (fun q => q.1 == 20)) = [] ∧
    (serializerUpdate c3Store 1 20 c3Payload).tags = c3Store.tags :=
  c3_empty_tags_list_clears_associations_keeps_rows c3Store 1 20 c3Payload rfl

/-! ### C4 -/

/-- C4: for every update payload — including one carrying a `user` key
naming another user — the owner of the updated recipe is unchanged: the
serializer declares no writable `user` field, so `to_internal_value`
drops the key and the attribute loop never touches the owner.  (The
operation still succeeds: unknown payload keys are dropped, not
rejected.) -/
theorem c4_update_preserves_recipe_owner
    (s : Store) (u rid : Nat) (p : RawRecipePayload) :
    ((serializerUpdate s u rid p).recipes.find? (fun r => r.id == rid)).map Recipe.user
      = (s.recipes.find? (fun r => r.id == rid)).map Recipe.user := by
  set vd := toInternalValue recipeDetailSerializerFields recipeSerializerReadOnlyFields p with hvddef
  have huser : vd.user = none := by
    simp [hvddef, toInternalValue, detail_user_not_writable]
  have hshape := update_recipes_shape s u rid vd
  have hrecipes :
      (getOrCreateIngredients
        (ingredientClear (getOrCreateTags (tagsClear s rid) u rid (vd.tags.getD [])) rid)
        u rid (vd.ingredient.getD [])).recipes = s.recipes := by
    rw [(getOrCreateIngredients_frame u rid _ _).1]
    show (getOrCreateTags (tagsClear s rid) u rid (vd.tags.getD [])).recipes = s.recipes
    rw [(getOrCreateTags_frame u rid _ _).1]
    rfl
  have hmain : (serializerUpdate s u rid p).recipes
      = s.recipes.map (fun r => if r.id == rid then setattrLoop vd r else r) := by
    show (RecipeSerializer.update s u rid vd).recipes
        = s.recipes.map (fun r => if r.id == rid then setattrLoop vd r else r)
    rw [hshape]
    show (getOrCreateIngredients
        (ingredientClear (getOrCreateTags (tagsClear s rid) u rid (vd.tags.getD [])) rid)
        u rid (vd.ingredient.getD [])).recipes.map
          (fun r => if r.id == rid then setattrLoop vd r else r)
      = s.recipes.map (fun r => if r.id == rid then setattrLoop vd r else r)
    rw [hrecipes]
  rw [hmain]
  refine find?_map_proj _ _ _ ?_ ?_ s.recipes
  · intro r
    by_cases h : r.id = rid
    · simp [h, setattrLoop]
    · simp [h]
  · intro r hr
    have h : r.id = rid := by simpa using hr
    simp [h, setattrLoop, huser]

/-! ### C10 and C2: nested validation and get-or-create -/

/-- After nested validation the payload `id` is gone, so the
`get_or_create` lookup filters on the authenticated user and the name
only. -/
theorem lookupTag_validated (s : Store) (u : Nat) (it : RawTagItem) :
    lookupTag s u (nestedValidateTag it)
      = s.tags.find? (fun t => t.user == u && t.name == it.name) := by
  show s.tags.find? (fun t => (t.user == u && t.name == it.name) && true)
      = s.tags.find? (fun t => t.user == u && t.name == it.name)
  exact congrArg (fun pr => List.find? pr s.tags) (funext fun t => Bool.and_true _)

/-- Ingredient analogue of `lookupTag_validated`. -/
theorem lookupIngredient_validated (s : Store) (u : Nat) (jt : RawIngredientItem) :
    lookupIngredient s u (nestedValidateIngredient jt)
      = s.ingredients.find? (fun t => t.user == u && t.name == jt.name) := by
  show s.ingredients.find? (fun t => (t.user == u && t.name == jt.name) && true)
      = s.ingredients.find? (fun t => t.user == u && t.name == jt.name)
  exact congrArg (fun pr => List.find? pr s.ingredients) (funext fun t => Bool.and_true _)

/-- Behaviour of one validated tag item in `_get_or_create_tags`: an
existing (user, name) row is reused with the store unchanged; a row is
inserted only when no such row exists; and in either case the association
row is added. -/
theorem tag_get_or_create_spec (s : Store) (u rid : Nat) (it : RawTagItem) :
    ((∃ t ∈ s.tags, t.user = u ∧ t.name = it.name) →
       (tagGetOrCreate s u (nestedValidateTag it)).2 = s ∧
       (tagGetOrCreate s u (nestedValidateTag it)).1 ∈ s.tags ∧
       (tagGetOrCreate s u (nestedValidateTag it)).1.user = u ∧
       (tagGetOrCreate s u (nestedValidateTag it)).1.name = it.name) ∧
    ((∀ t ∈ s.tags, ¬(t.user = u ∧ t.name = it.name)) →
       (tagGetOrCreate s u (nestedValidateTag it)).2.tags
         = s.tags ++ [(tagGetOrCreate s u (nestedValidateTag it)).1]) ∧
    ((rid, (tagGetOrCreate s u (nestedValidateTag it)).1.id)
       ∈ (getOrCreateTagStep u rid s (nestedValidateTag it)).recipeTags) := by
  refine ⟨?_, ?_, ?_⟩
  · rintro ⟨t0, ht0, hu0, hn0⟩
    rcases hfind : s.tags.find? (fun t => t.user == u && t.name == it.name) with _ | t'
    · exfalso
      have := List.find?_eq_none.mp hfind t0 ht0
      simp [hu0, hn0] at this
    · have hl : lookupTag s u (nestedValidateTag it) = some t' :=
        (lookupTag_validated s u it).trans hfind
      have hprop := List.find?_some hfind
      have hmem := List.mem_of_find?_eq_some hfind
      rw [Bool.and_eq_true, beq_iff_eq, beq_iff_eq] at hprop
      refine ⟨?_, ?_, ?_, ?_⟩ <;>
        simp [tagGetOrCreate, hl, hmem, hprop.1, hprop.2]
  · intro hnone
    have hfind : s.tags.find? (fun t => t.user == u && t.name == it.name) = none := by
      refine List.find?_eq_none.mpr ?_
      intro t ht
      have := hnone t ht
      simpa [Bool.and_eq_true, beq_iff_eq] using this
    have hl : lookupTag s u (nestedValidateTag it) = none :=
      (lookupTag_validated s u it).trans hfind
    simp [tagGetOrCreate, hl]
  · exact mem_tagsAdd (tagGetOrCreate s u (nestedValidateTag it)).2 rid
      (tagGetOrCreate s u (nestedValidateTag it)).1.id

/-- Ingredient analogue of `tag_get_or_create_spec`. -/
theorem ingredient_get_or_create_spec (s : Store) (u rid : Nat) (jt : RawIngredientItem) :
    ((∃ t ∈ s.ingredients, t.user = u ∧ t.name = jt.name) →
       (ingredientGetOrCreate s u (nestedValidateIngredient jt)).2 = s ∧
       (ingredientGetOrCreate s u (nestedValidateIngredient jt)).1 ∈ s.ingredients ∧
       (ingredientGetOrCreate s u (nestedValidateIngredient jt)).1.user = u ∧
       (ingredientGetOrCreate s u (nestedValidateIngredient jt)).1.name = jt.name) ∧
    ((∀ t ∈ s.ingredients, ¬(t.user = u ∧ t.name = jt.name)) →
       (ingredientGetOrCreate s u (nestedValidateIngredient jt)).2.ingredients
         = s.ingredients ++ [(ingredientGetOrCreate s u (nestedValidateIngredient jt)).1]) ∧
    ((rid, (ingredientGetOrCreate s u (nestedValidateIngredient jt)).1.id)
       ∈ (getOrCreateIngredientStep u rid s (nestedValidateIngredient jt)).recipeIngredients) := by
  refine ⟨?_, ?_, ?_⟩
  · rintro ⟨t0, ht0, hu0, hn0⟩
    rcases hfind : s.ingredients.find? (fun t => t.user == u && t.name == jt.name) with _ | t'
    · exfalso
      have := List.find?_eq_none.mp hfind t0 ht0
      simp [hu0, hn0] at this
    · have hl : lookupIngredient s u (nestedValidateIngredient jt) = some t' :=
        (lookupIngredient_validated s u jt).trans hfind
      have hprop := List.find?_some hfind
      have hmem := List.mem_of_find?_eq_some hfind
      rw [Bool.and_eq_true, beq_iff_eq, beq_iff_eq] at hprop
      refine ⟨?_, ?_, ?_, ?_⟩ <;>
        simp [ingredientGetOrCreate, hl, hmem, hprop.1, hprop.2]
  · intro hnone
    have hfind : s.ingredients.find? (fun t => t.user == u && t.name == jt.name) = none := by
      refine List.find?_eq_none.mpr ?_
      intro t ht
      have := hnone t ht
      simpa [Bool.and_eq_true, beq_iff_eq] using this
    have hl : lookupIngredient s u (nestedValidateIngredient jt) = none :=
      (lookupIngredient_validated s u jt).trans hfind
    simp [ingredientGetOrCreate, hl]
  · exact mem_ingredientAdd (ingredientGetOrCreate s u (nestedValidateIngredient jt)).2 rid
      (ingredientGetOrCreate s u (nestedValidateIngredient jt)).1.id

/-- C2: during recipe create or update, a nested tag item whose fields
match an existing Tag row of the requesting user reuses that row (no row
is inserted and the store is unchanged); a row is inserted only when no
matching row exists for that user; the resulting row is associated with
the recipe.  The same holds for ingredients. -/
theorem c2_nested_get_or_create_reuses_existing_rows
    (s : Store) (u rid : Nat) (it : RawTagItem) (jt : RawIngredientItem) :
    (((∃ t ∈ s.tags, t.user = u ∧ t.name = it.name) →
        (tagGetOrCreate s u (nestedValidateTag it)).2 = s ∧
        (tagGetOrCreate s u (nestedValidateTag it)).1 ∈ s.tags ∧
        (tagGetOrCreate s u (nestedValidateTag it)).1.user = u ∧
        (tagGetOrCreate s u (nestedValidateTag it)).1.name = it.name) ∧
     ((∀ t ∈ s.tags, ¬(t.user = u ∧ t.name = it.name)) →
        (tagGetOrCreate s u (nestedValidateTag it)).2.tags
          = s.tags ++ [(tagGetOrCreate s u (nestedValidateTag it)).1]) ∧
     ((rid, (tagGetOrCreate s u (nestedValidateTag it)).1.id)
        ∈ (getOrCreateTagStep u rid s (nestedValidateTag it)).recipeTags)) ∧
    (((∃ t ∈ s.ingredients, t.user = u ∧ t.name = jt.name) →
        (ingredientGetOrCreate s u (nestedValidateIngredient jt)).2 = s ∧
        (ingredientGetOrCreate s u (nestedValidateIngredient jt)).1 ∈ s.ingredients ∧
        (ingredientGetOrCreate s u (nestedValidateIngredient jt)).1.user = u ∧
        (ingredientGetOrCreate s u (nestedValidateIngredient jt)).1.name = jt.name) ∧
     ((∀ t ∈ s.ingredients, ¬(t.user = u ∧ t.name = jt.name)) →
        (ingredientGetOrCreate s u (nestedValidateIngredient jt)).2.ingredients
          = s.ingredients ++ [(ingredientGetOrCreate s u (nestedValidateIngredient jt)).1]) ∧
     ((rid, (ingredientGetOrCreate s u (nestedValidateIngredient jt)).1.id)
        ∈ (getOrCreateIngredientStep u rid s (nestedValidateIngredient jt)).recipeIngredients)) :=
  ⟨tag_get_or_create_spec s u rid it, ingredient_get_or_create_spec s u rid jt⟩

/-- Witness store for C2: user 1 owns tag "Thai" (id 1) and ingredient
"Salt" (id 1). -/
def c2Store : Store :=
  { tags := [{ id := 1, user := 1, name := "Thai" }],
    ingredients := [{ id := 1, user := 1, name := "Salt" }],
    recipes := [],
    recipeTags := [], recipeIngredients := [],
    nextTagId := 2, nextIngredientId := 2, nextRecipeId := 1 }

theorem c2_witness :
    (tagGetOrCreate c2Store 1 (nestedValidateTag { name := "Thai" })).2 = c2Store ∧
    (ingredientGetOrCreate c2Store 1 (nestedValidateIngredient { name := "Salt" })).2 = c2Store :=
  ⟨((c2_nested_get_or_create_reuses_existing_rows c2Store 1 7 { name := "Thai" }
      { name := "Salt" }).1.1
      ⟨{ id := 1, user := 1, name := "Thai" }, by decide, rfl, rfl⟩).1,
   ((c2_nested_get_or_create_reuses_existing_rows c2Store 1 7 { name := "Thai" }
      { name := "Salt" }).2.1
      ⟨{ id := 1, user := 1, name := "Salt" }, by decide, rfl, rfl⟩).1⟩

/-- C10: the nested serializers declare `id` read-only, so a
client-supplied `id` in a nested item is stripped by validation and the
get-or-create lookup key is always the (authenticated user, name) pair. -/
theorem c10_nested_id_ignored_lookup_user_name
    (s : Store) (u : Nat) (it : RawTagItem) (jt : RawIngredientItem) :
    nestedValidateTag it = { id := none, name := it.name } ∧
    lookupTag s u (nestedValidateTag it)
      = s.tags.find? (fun t => t.user == u && t.name == it.name) ∧
    nestedValidateIngredient jt = { id := none, name := jt.name } ∧
    lookupIngredient s u (nestedValidateIngredient jt)
      = s.ingredients.find? (fun t => t.user == u && t.name == jt.name) :=
  ⟨rfl, lookupTag_validated s u it, rfl, lookupIngredient_validated s u jt⟩

/-! ### C5: atomicity of the create/update write sequence -/

theorem foldFallible_some {β : Type} (oracle : Nat → Bool) (step : Store → β → Store) :
    ∀ (bs : List β) (k : Nat) (s s2 : Store),
      foldFallible oracle step k bs s = some s2 → s2 = bs.foldl step s
  | [], _, s, s2, h => by
    rw [foldFallible] at h
    exact (Option.some.inj h).symm
  | b :: bs, k, s, s2, h => by
    rw [foldFallible] at h
    split at h
    · exact absurd h (by simp)
    · exact foldFallible_some oracle step bs (k + 1) (step s b) s2 h

/-- A committed fallible create produced exactly the store of the pure
serializer create. -/
theorem createFallible_some (oracle : Nat → Bool) (s : Store) (u : Nat)
    (vd : ValidatedData) (s2 : Store)
    (h : createFallible oracle s u vd = some s2) :
    s2 = (RecipeSerializer.create s u vd).2 := by
  simp only [createFallible] at h
  split at h
  · exact absurd h (by simp)
  · split at h
    · exact absurd h (by simp)
    · rename_i s1 hfold1
      have h1 := foldFallible_some oracle _ _ _ _ _ hfold1
      have h2 := foldFallible_some oracle _ _ _ _ _ h
      rw [h2, h1]
      rfl

/-- A committed fallible update produced exactly the store of the pure
serializer update. -/
theorem updateFallible_some (oracle : Nat → Bool) (s : Store) (u rid : Nat)
    (vd : ValidatedData) (s2 : Store)
    (h : updateFallible oracle s u rid vd = some s2) :
    s2 = RecipeSerializer.update s u rid vd := by
  simp only [updateFallible] at h
  split at h
  · exact absurd h (by simp)
  · split at h
    · exact absurd h (by simp)
    · rename_i s1 hfold1
      split at h
      · exact absurd h (by simp)
      · split at h
        · exact absurd h (by simp)
        · rename_i s3 hfold2
          split at h
          · exact absurd h (by simp)
          · have h1 := foldFallible_some oracle _ _ _ _ _ hfold1
            have h2 := foldFallible_some oracle _ _ _ _ _ hfold2
            have h3 := Option.some.inj h
            rw [← h3, h2, h1]
            rfl

/-- C5: with the all-or-nothing transaction the spec requires around the
create/update write sequence, a failure of any step leaves the stored
state exactly as before the operation, and a committed run produces
exactly the pure serializer result. -/
theorem c5_create_update_atomic (oracle : Nat → Bool) (s : Store) (u rid : Nat)
    (vd : ValidatedData) :
    ((runAtomic s (fun st => createFallible oracle st u vd)).2 = false →
       (runAtomic s (fun st => createFallible oracle st u vd)).1 = s) ∧
    ((runAtomic s (fun st => createFallible oracle st u vd)).2 = true →
       (runAtomic s (fun st => createFallible oracle st u vd)).1
         = (RecipeSerializer.create s u vd).2) ∧
    ((runAtomic s (fun st => updateFallible oracle st u rid vd)).2 = false →
       (runAtomic s (fun st => updateFallible oracle st u rid vd)).1 = s) ∧
    ((runAtomic s (fun st => updateFallible oracle st u rid vd)).2 = true →
       (runAtomic s (fun st => updateFallible oracle st u rid vd)).1
         = RecipeSerializer.update s u rid vd) := by
  refine ⟨?_, ?_, ?_, ?_⟩
  · intro hfail
    rcases h : createFallible oracle s u vd with _ | s2
    · simp [runAtomic, h]
    · simp [runAtomic, h] at hfail
  · intro hok
    rcases h : createFallible oracle s u vd with _ | s2
    · simp [runAtomic, h] at hok
    · simpa [runAtomic, h] using createFallible_some oracle s u vd s2 h
  · intro hfail
    rcases h : updateFallible oracle s u rid vd with _ | s2
    · simp [runAtomic, h]
    · simp [runAtomic, h] at hfail
  · intro hok
    rcases h : updateFallible oracle s u rid vd with _ | s2
    · simp [runAtomic, h] at hok
    · simpa [runAtomic, h] using updateFallible_some oracle s u rid vd s2 h

/-- Failure oracle for the C5 witness: the write numbered 1 (the first
nested tag write) raises. -/
def c5Oracle : Nat → Bool := fun k => k == 1

/-- Empty witness store for C5. -/
def c5Store : Store :=
  { tags := [], ingredients := [], recipes := [],
    recipeTags := [], recipeIngredients := [],
    nextTagId := 1, nextIngredientId := 1, nextRecipeId := 1 }

/-- Witness validated data for C5: one nested tag item. -/
def c5Vd : ValidatedData :=
  { title := some "thai prawn curry", time_minutes := some 30, price := some 1000,
    link := none, description := none, user := none,
    tags := some [{ id := none, name := "Thai" }], ingredient := none }

theorem c5_witness :
    (runAtomic c5Store (fun st => createFallible c5Oracle st 1 c5Vd)).2 = false ∧
    (runAtomic c5Store (fun st => createFallible c5Oracle st 1 c5Vd)).1 = c5Store :=
  ⟨by decide, (c5_create_update_atomic c5Oracle c5Store 1 0 c5Vd).1 (by decide)⟩

/-! ### Membership in the list views -/

theorem mem_joinRecipesTags (s : Store) (rs : List Recipe) (ids : List Nat) (r : Recipe) :
    r ∈ joinRecipesTags s rs ids ↔ (r ∈ rs ∧ recipeHasTagIn s r.id ids = true) := by
  unfold joinRecipesTags recipeHasTagIn
  simp only [List.mem_flatMap, List.mem_map, List.mem_filter, List.any_eq_true]
  constructor
  · rintro ⟨r0, hr0, x, ⟨hx, hcond⟩, rfl⟩
    exact ⟨hr0, x, hx, hcond⟩
  · rintro ⟨hr, x, hx, hcond⟩
    exact ⟨r, hr, x, ⟨hx, hcond⟩, rfl⟩

theorem mem_joinRecipesIngredients (s : Store) (rs : List Recipe) (ids : List Nat) (r : Recipe) :
    r ∈ joinRecipesIngredients s rs ids ↔ (r ∈ rs ∧ recipeHasIngredientIn s r.id ids = true) := by
  unfold joinRecipesIngredients recipeHasIngredientIn
  simp only [List.mem_flatMap, List.mem_map, List.mem_filter, List.any_eq_true]
  constructor
  · rintro ⟨r0, hr0, x, ⟨hx, hcond⟩, rfl⟩
    exact ⟨hr0, x, hx, hcond⟩
  · rintro ⟨hr, x, hx, hcond⟩
    exact ⟨r, hr, x, ⟨hx, hcond⟩, rfl⟩

theorem mem_recipeListPre (s : Store) (u : Nat) (tp ip : Option String) (r : Recipe) :
    r ∈ recipeListPre s u tp ip ↔
      (r ∈ s.recipes ∧ r.user = u ∧
       (∀ qs ∈ tp, recipeHasTagIn s r.id (paramsToInts qs) = true) ∧
       (∀ qs ∈ ip, recipeHasIngredientIn s r.id (paramsToInts qs) = true)) := by
  unfold recipeListPre
  cases tp <;> cases ip <;>
    simp [mem_joinRecipesTags, mem_joinRecipesIngredients, List.mem_filter, and_assoc]

theorem mem_recipeListView (s : Store) (u : Nat) (tp ip : Option String) (r : Recipe)
    (hinj : ∀ x ∈ s.recipes, ∀ y ∈ s.recipes, x.id = y.id → x = y) :
    r ∈ recipeListView s u tp ip ↔
      (r ∈ s.recipes ∧ r.user = u ∧
       (∀ qs ∈ tp, recipeHasTagIn s r.id (paramsToInts qs) = true) ∧
       (∀ qs ∈ ip, recipeHasIngredientIn s r.id (paramsToInts qs) = true)) := by
  unfold recipeListView
  constructor
  · intro h
    exact (mem_recipeListPre s u tp ip r).mp
      ((mem_sortDescBy _ _ r).mp (mem_of_mem_distinctBy Recipe.id _ r h))
  · intro hr
    refine mem_distinctBy_of_mem Recipe.id _ r ?_ ((mem_sortDescBy _ _ r).mpr
      ((mem_recipeListPre s u tp ip r).mpr hr))
    intro x hx y hy hxy
    have hx2 := (mem_recipeListPre s u tp ip x).mp ((mem_sortDescBy _ _ x).mp hx)
    have hy2 := (mem_recipeListPre s u tp ip y).mp ((mem_sortDescBy _ _ y).mp hy)
    exact hinj x hx2.1 y hy2.1 hxy

theorem recipeListView_scoped (s : Store) (u : Nat) (tp ip : Option String) (r : Recipe)
    (h : r ∈ recipeListView s u tp ip) : r ∈ s.recipes ∧ r.user = u := by
  have h3 := (mem_recipeListPre s u tp ip r).mp
    ((mem_sortDescBy _ _ r).mp (mem_of_mem_distinctBy Recipe.id _ r h))
  exact ⟨h3.1, h3.2.1⟩

theorem mem_tagListPre (s : Store) (u : Nat) (b : Bool) (t : Tag) :
    t ∈ tagListPre s u b ↔
      (t ∈ s.tags ∧ t.user = u ∧ (b = true → tagAssignedTo s u t.id = true)) := by
  unfold tagListPre tagAssignedTo
  cases b
  · simp [List.mem_filter]
  · simp only [List.mem_flatMap, List.mem_map, List.mem_filter, List.any_eq_true,
      if_true, forall_const]
    constructor
    · rintro ⟨t0, ⟨ht0, hu0⟩, x, ⟨hx, hcond⟩, rfl⟩
      simp only [beq_iff_eq] at hu0
      exact ⟨ht0, hu0, x, hx, hcond⟩
    · rintro ⟨ht, hu, x, hx, hcond⟩
      exact ⟨t, ⟨ht, by simp [hu]⟩, x, ⟨hx, hcond⟩, rfl⟩

theorem mem_tagListView (s : Store) (u : Nat) (b : Bool) (t : Tag)
    (hinj : ∀ x ∈ s.tags, ∀ y ∈ s.tags, x.id = y.id → x = y) :
    t ∈ tagListView s u b ↔
      (t ∈ s.tags ∧ t.user = u ∧ (b = true → tagAssignedTo s u t.id = true)) := by
  unfold tagListView
  constructor
  · intro h
    exact (mem_tagListPre s u b t).mp
      ((mem_sortDescBy _ _ t).mp (mem_of_mem_distinctBy Tag.id _ t h))
  · intro ht
    refine mem_distinctBy_of_mem Tag.id _ t ?_ ((mem_sortDescBy _ _ t).mpr
      ((mem_tagListPre s u b t).mpr ht))
    intro x hx y hy hxy
    have hx2 := (mem_tagListPre s u b x).mp ((mem_sortDescBy _ _ x).mp hx)
    have hy2 := (mem_tagListPre s u b y).mp ((mem_sortDescBy _ _ y).mp hy)
    exact hinj x hx2.1 y hy2.1 hxy

theorem tagListView_scoped (s : Store) (u : Nat) (b : Bool) (t : Tag)
    (h : t ∈ tagListView s u b) : t ∈ s.tags ∧ t.user = u := by
  have h3 := (mem_tagListPre s u b t).mp
    ((mem_sortDescBy _ _ t).mp (mem_of_mem_distinctBy Tag.id _ t h))
  exact ⟨h3.1, h3.2.1⟩

theorem mem_ingredientListPre (s : Store) (u : Nat) (b : Bool) (i : Ingredient) :
    i ∈ ingredientListPre s u b ↔
      (i ∈ s.ingredients ∧ i.user = u ∧ (b = true → ingredientAssignedTo s u i.id = true)) := by
  unfold ingredientListPre ingredientAssignedTo
  cases b
  · simp [List.mem_filter]
  · simp only [List.mem_flatMap, List.mem_map, List.mem_filter, List.any_eq_true,
      if_true, forall_const]
    constructor
    · rintro ⟨t0, ⟨ht0, hu0⟩, x, ⟨hx, hcond⟩, rfl⟩
      simp only [beq_iff_eq] at hu0
      exact ⟨ht0, hu0, x, hx, hcond⟩
    · rintro ⟨ht, hu, x, hx, hcond⟩
      exact ⟨i, ⟨ht, by simp [hu]⟩, x, ⟨hx, hcond⟩, rfl⟩

theorem mem_ingredientListView (s : Store) (u : Nat) (b : Bool) (i : Ingredient)
    (hinj : ∀ x ∈ s.ingredients, ∀ y ∈ s.ingredients, x.id = y.id → x = y) :
    i ∈ ingredientListView s u b ↔
      (i ∈ s.ingredients ∧ i.user = u ∧ (b = true → ingredientAssignedTo s u i.id = true)) := by
  unfold ingredientListView
  constructor
  · intro h
    exact (mem_ingredientListPre s u b i).mp
      ((mem_sortDescBy _ _ i).mp (mem_of_mem_distinctBy Ingredient.id _ i h))
  · intro hi
    refine mem_distinctBy_of_mem Ingredient.id _ i ?_ ((mem_sortDescBy _ _ i).mpr
      ((mem_ingredientListPre s u b i).mpr hi))
    intro x hx y hy hxy
    have hx2 := (mem_ingredientListPre s u b x).mp ((mem_sortDescBy _ _ x).mp hx)
    have hy2 := (mem_ingredientListPre s u b y).mp ((mem_sortDescBy _ _ y).mp hy)
    exact hinj x hx2.1 y hy2.1 hxy

theorem ingredientListView_scoped (s : Store) (u : Nat) (b : Bool) (i : Ingredient)
    (h : i ∈ ingredientListView s u b) : i ∈ s.ingredients ∧ i.user = u := by
  have h3 := (mem_ingredientListPre s u b i).mp
    ((mem_sortDescBy _ _ i).mp (mem_of_mem_distinctBy Ingredient.id _ i h))
  exact ⟨h3.1, h3.2.1⟩

/-! ### C7 -/

/-- C7: a recipe-list request with a comma-separated `tags` id filter
returns exactly the recipes of the requesting user associated with at least
one listed tag id (union semantics), each exactly once; the analogous
statement holds for the ingredient filter; when both filters are given
their conditions conjoin. -/
theorem c7_recipe_list_filtering (s : Store) (u : Nat) (tp ip : Option String) (r : Recipe)
    (hids : (s.recipes.map Recipe.id).Nodup) :
    (r ∈ recipeListView s u tp ip ↔
      (r ∈ s.recipes ∧ r.user = u ∧
       (∀ qs ∈ tp, recipeHasTagIn s r.id (paramsToInts qs) = true) ∧
       (∀ qs ∈ ip, recipeHasIngredientIn s r.id (paramsToInts qs) = true))) ∧
    (r ∈ recipeListView s u tp ip → (recipeListView s u tp ip).count r = 1) := by
  have hinj : ∀ x ∈ s.recipes, ∀ y ∈ s.recipes, x.id = y.id → x = y :=
    fun x hx y hy h => List.inj_on_of_nodup_map hids hx hy h
  refine ⟨mem_recipeListView s u tp ip r hinj, ?_⟩
  intro hmem
  refine Nat.le_antisymm ?_ (List.count_pos_iff.mpr hmem)
  exact count_distinctBy_le_one Recipe.id _ r

/-! ### C8 -/

/-- C8: a tag-list request with `assigned_only=1` returns exactly the
tags of the requesting user associated with at least one recipe owned by that
user, each exactly once; tags with no recipe association are excluded.
The analogous statement holds for ingredients. -/
theorem c8_assigned_only_filtering (s : Store) (u : Nat) (t : Tag) (i : Ingredient)
    (hTagIds : (s.tags.map Tag.id).Nodup)
    (hIngIds : (s.ingredients.map Ingredient.id).Nodup) :
    (t ∈ tagListView s u true ↔
      (t ∈ s.tags ∧ t.user = u ∧ tagAssignedTo s u t.id = true)) ∧
    (t ∈ tagListView s u true → (tagListView s u true).count t = 1) ∧
    (i ∈ ingredientListView s u true ↔
      (i ∈ s.ingredients ∧ i.user = u ∧ ingredientAssignedTo s u i.id = true)) ∧
    (i ∈ ingredientListView s u true → (ingredientListView s u true).count i = 1) := by
  have hinjT : ∀ x ∈ s.tags, ∀ y ∈ s.tags, x.id = y.id → x = y :=
    fun x hx y hy h => List.inj_on_of_nodup_map hTagIds hx hy h
  have hinjI : ∀ x ∈ s.ingredients, ∀ y ∈ s.ingredients, x.id = y.id → x = y :=
    fun x hx y hy h => List.inj_on_of_nodup_map hIngIds hx hy h
  refine ⟨?_, ?_, ?_, ?_⟩
  · constructor
    · intro h
      have := (mem_tagListView s u true t hinjT).mp h
      exact ⟨this.1, this.2.1, this.2.2 rfl⟩
    · intro h
      exact (mem_tagListView s u true t hinjT).mpr ⟨h.1, h.2.1, fun _ => h.2.2⟩
  · intro hmem
    refine Nat.le_antisymm ?_ (List.count_pos_iff.mpr hmem)
    exact count_distinctBy_le_one Tag.id _ t
  · constructor
    · intro h
      have := (mem_ingredientListView s u true i hinjI).mp h
      exact ⟨this.1, this.2.1, this.2.2 rfl⟩
    · intro h
      exact (mem_ingredientListView s u true i hinjI).mpr ⟨h.1, h.2.1, fun _ => h.2.2⟩
  · intro hmem
    refine Nat.le_antisymm ?_ (List.count_pos_iff.mpr hmem)
    exact count_distinctBy_le_one Ingredient.id _ i

/-! ### C6 -/

/-- C6: entities of user `u1` never appear in the list or retrieve
responses of a different user `u2`; retrieve, update and delete by `u2` on
`u1` ids answer 404 — not any other error code — and leave the store
unchanged.  Holds for recipes, tags and ingredients. -/
theorem c6_cross_user_isolation (s : Store) (u1 u2 : Nat) (r : Recipe) (t : Tag)
    (i : Ingredient) (p : RawRecipePayload) (nm : Option String)
    (hne : u1 ≠ u2)
    (hRecIds : (s.recipes.map Recipe.id).Nodup)
    (hTagIds : (s.tags.map Tag.id).Nodup)
    (hIngIds : (s.ingredients.map Ingredient.id).Nodup)
    (hr : r ∈ s.recipes) (hru : r.user = u1)
    (ht : t ∈ s.tags) (htu : t.user = u1)
    (hi : i ∈ s.ingredients) (hiu : i.user = u1) :
    (∀ tp ip, r ∉ recipeListView s u2 tp ip) ∧
    recipeDetailGet s u2 r.id = none ∧
    retrieveRecipeView s u2 r.id = 404 ∧
    updateRecipeView s u2 r.id p = (404, s) ∧
    deleteRecipeView s u2 r.id = (404, s) ∧
    (∀ b, t ∉ tagListView s u2 b) ∧
    tagDetailGet s u2 t.id = none ∧
    retrieveTagView s u2 t.id = 404 ∧
    updateTagView s u2 t.id nm = (404, s) ∧
    deleteTagView s u2 t.id = (404, s) ∧
    (∀ b, i ∉ ingredientListView s u2 b) ∧
    ingredientDetailGet s u2 i.id = none ∧
    retrieveIngredientView s u2 i.id = 404 ∧
    updateIngredientView s u2 i.id nm = (404, s) ∧
    deleteIngredientView s u2 i.id = (404, s) := by
  have hdetR : recipeDetailGet s u2 r.id = none := by
    unfold recipeDetailGet
    refine List.find?_eq_none.mpr ?_
    intro x hx
    have hx2 := List.mem_filter.mp hx
    simp only [beq_iff_eq]
    intro hid
    have hxr : x = r := List.inj_on_of_nodup_map hRecIds hx2.1 hr hid
    have : r.user = u2 := by
      rw [← hxr]
      simpa using hx2.2
    exact hne (hru ▸ this.symm).symm
  have hdetT : tagDetailGet s u2 t.id = none := by
    unfold tagDetailGet
    refine List.find?_eq_none.mpr ?_
    intro x hx
    have hx2 := List.mem_filter.mp hx
    simp only [beq_iff_eq]
    intro hid
    have hxt : x = t := List.inj_on_of_nodup_map hTagIds hx2.1 ht hid
    have : t.user = u2 := by
      rw [← hxt]
      simpa using hx2.2
    exact hne (htu ▸ this.symm).symm
  have hdetI : ingredientDetailGet s u2 i.id = none := by
    unfold ingredientDetailGet
    refine List.find?_eq_none.mpr ?_
    intro x hx
    have hx2 := List.mem_filter.mp hx
    simp only [beq_iff_eq]
    intro hid
    have hxi : x = i := List.inj_on_of_nodup_map hIngIds hx2.1 hi hid
    have : i.user = u2 := by
      rw [← hxi]
      simpa using hx2.2
    exact hne (hiu ▸ this.symm).symm
  refine ⟨?_, hdetR, ?_, ?_, ?_, ?_, hdetT, ?_, ?_, ?_, ?_, hdetI, ?_, ?_, ?_⟩
  · intro tp ip hmem
    have := (recipeListView_scoped s u2 tp ip r hmem).2
    exact hne (hru ▸ this.symm).symm
  · simp [retrieveRecipeView, hdetR]
  · simp [updateRecipeView, hdetR]
  · simp [deleteRecipeView, hdetR]
  · intro b hmem
    have := (tagListView_scoped s u2 b t hmem).2
    exact hne (htu ▸ this.symm).symm
  · simp [retrieveTagView, hdetT]
  · simp [updateTagView, hdetT]
  · simp [deleteTagView, hdetT]
  · intro b hmem
    have := (ingredientListView_scoped s u2 b i hmem).2
    exact hne (hiu ▸ this.symm).symm
  · simp [retrieveIngredientView, hdetI]
  · simp [updateIngredientView, hdetI]
  · simp [deleteIngredientView, hdetI]

/-- Witness store for C6: user 1 owns one recipe, one tag and one
ingredient; user 2 owns nothing. -/
def c6Store : Store :=
  { tags := [{ id := 1, user := 1, name := "fruity" }],
    ingredients := [{ id := 1, user := 1, name := "Veggie" }],
    recipes := [{ id := 1, user := 1, title := "Sample recipe", time_minutes := 10,
                  price := 550, link := "", description := "" }],
    recipeTags := [], recipeIngredients := [],
    nextTagId := 2, nextIngredientId := 2, nextRecipeId := 2 }

theorem c6_witness :
    ({ id := 1, user := 1, title := "Sample recipe", time_minutes := 10,
       price := 550, link := "", description := "" } : Recipe)
        ∉ recipeListView c6Store 2 none none ∧
    retrieveRecipeView c6Store 2 1 = 404 ∧
    deleteRecipeView c6Store 2 1 = (404, c6Store) ∧
    retrieveTagView c6Store 2 1 = 404 ∧
    deleteTagView c6Store 2 1 = (404, c6Store) ∧
    retrieveIngredientView c6Store 2 1 = 404 := by
  have h := c6_cross_user_isolation c6Store 1 2
    { id := 1, user := 1, title := "Sample recipe", time_minutes := 10,
      price := 550, link := "", description := "" }
    { id := 1, user := 1, name := "fruity" }
    { id := 1, user := 1, name := "Veggie" }
    {} none
    (by decide) (by decide) (by decide) (by decide)
    (by decide) rfl (by decide) rfl (by decide) rfl
  obtain ⟨hL, _, hRet, _, hDel, _, _, hTRet, _, hTDel, _, _, hIRet, _, _⟩ := h
  exact ⟨hL none none, hRet, hDel, hTRet, hTDel, hIRet⟩

/-- Witness store for C7, mirroring `test_filter_by_tags`: three recipes,
two tags, recipe 1 tagged 1, recipe 2 tagged 2, recipe 3 untagged. -/
def c7Store : Store :=
  { tags := [{ id := 1, user := 1, name := "Tag 1" }, { id := 2, user := 1, name := "Tag 2" }],
    ingredients := [],
    recipes := [{ id := 1, user := 1, title := "Test Recipe 1", time_minutes := 10,
                  price := 550, link := "", description := "" },
                { id := 2, user := 1, title := "Test Recipe 2", time_minutes := 10,
                  price := 550, link := "", description := "" },
                { id := 3, user := 1, title := "Test Recipe 3", time_minutes := 10,
                  price := 550, link := "", description := "" }],
    recipeTags := [(1, 1), (2, 2)],
    recipeIngredients := [],
    nextTagId := 3, nextIngredientId := 1, nextRecipeId := 4 }

/-- The first recipe of the C7 witness store. -/
def c7Recipe1 : Recipe :=
  { id := 1, user := 1, title := "Test Recipe 1", time_minutes := 10,
    price := 550, link := "", description := "" }

theorem c7_witness :
    c7Recipe1 ∈ recipeListView c7Store 1 (some "1,2") none ∧
    (recipeListView c7Store 1 (some "1,2") none).count c7Recipe1 = 1 := by
  have h := c7_recipe_list_filtering c7Store 1 (some "1,2") none c7Recipe1 (by decide)
  have hmem : c7Recipe1 ∈ recipeListView c7Store 1 (some "1,2") none := by
    refine h.1.mpr ⟨by decide, rfl, ?_, ?_⟩
    · intro qs hqs
      rw [Option.mem_def] at hqs
      obtain rfl := Option.some.inj hqs
      decide
    · intro qs hqs
      rw [Option.mem_def] at hqs
      exact Option.noConfusion hqs
  exact ⟨hmem, h.2 hmem⟩

/-- Witness store for C8, mirroring the assigned-only tests: tag 1 and
ingredient 1 are associated with recipe 1; tag 2 and ingredient 2 are
not associated with any recipe. -/
def c8Store : Store :=
  { tags := [{ id := 1, user := 1, name := "tag1" }, { id := 2, user := 1, name := "tag2" }],
    ingredients := [{ id := 1, user := 1, name := "Apple" },
                    { id := 2, user := 1, name := "Banana" }],
    recipes := [{ id := 1, user := 1, title := "Test1 Recipe", time_minutes := 10,
                  price := 500, link := "", description := "" }],
    recipeTags := [(1, 1)],
    recipeIngredients := [(1, 1)],
    nextTagId := 3, nextIngredientId := 3, nextRecipeId := 2 }

theorem c8_witness :
    ({ id := 1, user := 1, name := "tag1" } : Tag) ∈ tagListView c8Store 1 true ∧
    ({ id := 2, user := 1, name := "tag2" } : Tag) ∉ tagListView c8Store 1 true ∧
    ({ id := 1, user := 1, name := "Apple" } : Ingredient)
      ∈ ingredientListView c8Store 1 true := by
  have h1 := c8_assigned_only_filtering c8Store 1
    { id := 1, user := 1, name := "tag1" } { id := 1, user := 1, name := "Apple" }
    (by decide) (by decide)
  have h2 := c8_assigned_only_filtering c8Store 1
    { id := 2, user := 1, name := "tag2" } { id := 1, user := 1, name := "Apple" }
    (by decide) (by decide)
  refine ⟨h1.1.mpr ⟨by decide, rfl, by decide⟩, ?_,
    h1.2.2.1.mpr ⟨by decide, rfl, by decide⟩⟩
  intro hmem
  have := (h2.1.mp hmem).2.2
  exact absurd this (by decide)

/-! ### C9 -/

/-- C9 counterexample: the claim names the nested relation key
`ingredients`, but the serializer declares the key `ingredient`
(singular): the claimed wire field set differs from the declared one. -/
theorem c9_wire_field_set_counterexample :
    "ingredients" ∉ recipeSerializerFields ∧
    "ingredient" ∈ recipeSerializerFields ∧
    recipeSerializerFields
      ≠ ["id", "title", "time_minutes", "price", "link", "tags", "ingredients"] := by
  decide

/-- C9 amended: the wire field set is exactly {id (read-only), title,
time_minutes, price, link, tags, ingredient} — the nested relation keys
are `tags` and `ingredient` (singular) — and the detail variant exposes
exactly these plus `description`; `id` is never writable, and
`description` is writable only on the detail serializer. -/
theorem c9_wire_field_set_amended :
    recipeSerializerFields
      = ["id", "title", "time_minutes", "price", "link", "tags", "ingredient"] ∧
    recipeDetailSerializerFields
      = ["id", "title", "time_minutes", "price", "link", "tags", "ingredient", "description"] ∧
    writableIn recipeSerializerFields recipeSerializerReadOnlyFields "id" = false ∧
    writableIn recipeDetailSerializerFields recipeSerializerReadOnlyFields "id" = false ∧
    writableIn recipeSerializerFields recipeSerializerReadOnlyFields "description" = false ∧
    writableIn recipeDetailSerializerFields recipeSerializerReadOnlyFields "description" = true := by
  decide

end RecipeApp
